import Mathlib

/-!
Shallow embedding of the XML extraction engine of transmission-rss
(`src/main.rs`, function `parse_xml`, lines 105-149).

The quick_xml scanner is an external crate; its output is made explicit as a
list of items, each either a structural event (`some ev`) or a scanner error
(`none`, the `Err` case of `read_event_into`, which the code `unwrap()`s).
Element names and attribute keys/values are carried together with the result
of their UTF-8 decoding: `none` models a failing `std::str::from_utf8`.
-/

namespace TransmissionRss

/-- One item of a tag's attribute iterator (`e.attributes()` in main.rs line
128), in document order: `key` and `value` hold the UTF-8 decode result of
the raw bytes (`none` when `std::str::from_utf8` fails on them). -/
structure RawAttr where
  key : Option String
  value : Option String

/-- A structural event from the quick_xml scanner (`quick_xml::events::Event`).
Element names carry their UTF-8 decode result (`none` when the raw name bytes
are not valid UTF-8).  `start` and `empty` carry the tag's attribute list; an
`Option.none` entry in that list models an `Err` item from the attribute
iterator (the `if let Ok(attr) = attr` guard in main.rs line 130).
`other` stands for every event the code ignores via `_ => ()` (text,
comments, CDATA, processing instructions, declarations). -/
inductive XEvent where
  | start (name : Option String) (attrs : List (Option RawAttr))
  | endTag (name : Option String)
  | empty (name : Option String) (attrs : List (Option RawAttr))
  | eof
  | other

/-- Outcome of one call to `parse_xml` (main.rs lines 105-149):
`panics` models the `.unwrap()` on a scanner error in line 115 (the process
aborts, nothing is returned), `fails` models an `Err` returned through the
`?` operator when a tag name is not valid UTF-8 (lines 117 and 124), and
`ok` is the normal return of line 148. -/
inductive PRes where
  | panics
  | fails
  | ok (urls : List String)
deriving DecidableEq

/-- The per-feed extraction configuration (main.rs lines 41-45): `path` is the
comma-separated tag path, `property` the wanted attribute name. -/
structure ParserConfig where
  path : String
  property : String

/-- Rust `str::split(',')` over the characters of the path string: split on
every comma, no trimming, empty pieces kept (so the split of `""` is `[""]`,
exactly as in Rust). -/
def splitComma : List Char → List (List Char)
  | [] => [[]]
  | c :: rest =>
    if c = ',' then [] :: splitComma rest
    else
      match splitComma rest with
      | [] => [[c]]
      | piece :: pieces => (c :: piece) :: pieces

/-- The path specification `path_parts` of main.rs line 111:
`parser_config.path.split(',').collect()`. -/
def split_path (s : String) : List String :=
  (splitComma s.data).map String.mk

/-- The match test of main.rs lines 125-127: clone the current path, push the
element name, compare for exact equality with `path_parts`. -/
def check_match (current_path : List String) (name : String)
    (path_parts : List String) : Bool :=
  decide (current_path ++ [name] = path_parts)

/-- Whether one attribute-iterator item is an `Ok` attribute whose key decodes
to exactly the wanted property (the guards of main.rs lines 130-132). -/
def attrKeyIs (a : Option RawAttr) (prop : String) : Bool :=
  match a with
  | some r => r.key == some prop
  | none => false

/-- The attribute loop of main.rs lines 128-140: iterate the attribute items
in document order; skip `Err` items, keys that do not decode, and values that
do not decode; whenever the decoded key equals the wanted property and the
value decodes, push the value.  Never stops early. -/
def extractAttrs : List (Option RawAttr) → String → List String
  | [], _ => []
  | none :: rest, prop => extractAttrs rest prop
  | some a :: rest, prop =>
    match a.key with
    | none => extractAttrs rest prop
    | some k =>
      if k = prop then
        match a.value with
        | none => extractAttrs rest prop
        | some v => v :: extractAttrs rest prop
      else extractAttrs rest prop

/-- The event loop of main.rs lines 114-147, one equation per `match` arm:
a scanner error is `unwrap()`ed (panic); `Start` decodes the name (`?` on
failure) and pushes it; `End` pops (no-op on an empty stack, as `Vec::pop`);
`Empty` decodes the name, builds `check_path = current_path + [name]`, and on
an exact match appends the extracted attribute values; `Eof` breaks and
returns the accumulated list. -/
def parseLoop (prop : String) (path_parts : List String) :
    List (Option XEvent) → List String → List String → PRes
  | [], _, urls => .ok urls
  | none :: _, _, _ => .panics
  | some ev :: rest, current_path, urls =>
    match ev with
    | .start name _ =>
      match name with
      | none => .fails
      | some n => parseLoop prop path_parts rest (current_path ++ [n]) urls
    | .endTag _ => parseLoop prop path_parts rest current_path.dropLast urls
    | .empty name attrs =>
      match name with
      | none => .fails
      | some n =>
        if check_match current_path n path_parts then
          parseLoop prop path_parts rest current_path
            (urls ++ extractAttrs attrs prop)
        else
          parseLoop prop path_parts rest current_path urls
    | .eof => .ok urls
    | .other => parseLoop prop path_parts rest current_path urls

/-- `parse_xml` of main.rs lines 105-149, with the scanner's event stream made
explicit as the first argument: split the configured path on commas, then run
the event loop with an empty ancestor stack and an empty result list. -/
def parse_xml (events : List (Option XEvent)) (parser_config : ParserConfig) :
    PRes :=
  parseLoop parser_config.property (split_path parser_config.path) events [] []

/-- Whether processing one event performs no failing UTF-8 decode: the code
only decodes the names of `Start` and `Empty` events (lines 117 and 124), so
those must be present; attribute contents are unconstrained (their decode
failures are non-fatal). -/
def eventOk : XEvent → Bool
  | .start none _ => false
  | .empty none _ => false
  | _ => true

/-- A scanner stream that tokenizes without error and whose element names all
decode as UTF-8: no `none` items and every event `eventOk`. -/
def streamOk : List (Option XEvent) → Bool
  | [] => true
  | none :: _ => false
  | some ev :: rest => eventOk ev && streamOk rest

/-- Spec-side reference for the Attribute Extractor, stated from the spec's
words (section 4.2) for refinement: the values, in attribute order, of every
well-formed attribute whose decoded key equals the wanted key, undecodable
values skipped. -/
def specExtract (attrs : List (Option RawAttr)) (wantedKey : String) :
    List String :=
  attrs.filterMap fun a =>
    match a with
    | some ⟨some k, some v⟩ => if k = wantedKey then some v else none
    | _ => none

/-- Spec-side reference for the Extraction Driver, stated from the spec's
words (sections 4.1 and 4.4) for refinement: scanning the events in document
order while maintaining the ancestor stack (push on open, pop on close with
the empty-stack guard, stop at end-of-document), the concatenation, in
document order, of the extracted values of every self-closing element whose
ancestor chain plus own name equals the target path. -/
def specValuesInDocOrder (prop : String) (target : List String) :
    List (Option XEvent) → List String → List String
  | [], _ => []
  | none :: _, _ => []
  | some ev :: rest, stack =>
    match ev with
    | .start (some n) _ => specValuesInDocOrder prop target rest (stack ++ [n])
    | .start none _ => []
    | .endTag _ => specValuesInDocOrder prop target rest stack.dropLast
    | .empty (some n) attrs =>
      (if stack ++ [n] = target then specExtract attrs prop else [])
        ++ specValuesInDocOrder prop target rest stack
    | .empty none _ => []
    | .eof => []
    | .other => specValuesInDocOrder prop target rest stack

/-- Helper: dropping the last element of a list extended by one element
returns the original list (the effect of `Vec::pop` right after a push). -/
theorem dropLast_append_single {α : Type} (l : List α) (a : α) :
    (l ++ [a]).dropLast = l := by
  simp

/-- Helper: the attribute loop of the code computes exactly the spec-side
filterMap of section 4.2. -/
theorem extractAttrs_eq_specExtract (attrs : List (Option RawAttr))
    (prop : String) : extractAttrs attrs prop = specExtract attrs prop := by
  induction attrs with
  | nil => rfl
  | cons a rest ih =>
    cases a with
    | none => simpa [extractAttrs, specExtract] using ih
    | some r =>
      obtain ⟨k, v⟩ := r
      cases k with
      | none => simpa [extractAttrs, specExtract] using ih
      | some k =>
        cases v with
        | none =>
          by_cases hk : k = prop <;> simp [extractAttrs, specExtract, hk, ih]
        | some v =>
          by_cases hk : k = prop <;> simp [extractAttrs, specExtract, hk, ih]

/-- Helper: on a stream without scanner errors whose element names all decode,
the event loop returns `ok` with the already-accumulated values followed by
the spec-side document-order values, for every starting stack and
accumulator. -/
theorem parseLoop_refines (prop : String) (pp : List String) :
    ∀ (evs : List (Option XEvent)) (path urls : List String),
      streamOk evs = true →
      parseLoop prop pp evs path urls
        = PRes.ok (urls ++ specValuesInDocOrder prop pp evs path) := by
  intro evs
  induction evs with
  | nil => intro path urls _; simp [parseLoop, specValuesInDocOrder]
  | cons item rest ih =>
    intro path urls h
    cases item with
    | none => simp [streamOk] at h
    | some ev =>
      have h2 : eventOk ev = true ∧ streamOk rest = true := by
        simpa [streamOk, Bool.and_eq_true] using h
      cases ev with
      | start name attrs =>
        cases name with
        | none => simp [eventOk] at h2
        | some n =>
          simp [parseLoop, specValuesInDocOrder, ih (path ++ [n]) urls h2.2]
      | endTag en =>
        simp [parseLoop, specValuesInDocOrder, ih path.dropLast urls h2.2]
      | empty name attrs =>
        cases name with
        | none => simp [eventOk] at h2
        | some n =>
          by_cases hm : path ++ [n] = pp
          · have hcm : check_match path n pp = true := by simp [check_match, hm]
            simp [parseLoop, specValuesInDocOrder, hcm, hm,
              extractAttrs_eq_specExtract]
            rw [ih path (urls ++ specExtract attrs prop) h2.2]
            simp [List.append_assoc]
          · have hcm : check_match path n pp = false := by simp [check_match, hm]
            simp [parseLoop, specValuesInDocOrder, hcm, hm, ih path urls h2.2]
      | eof => simp [parseLoop, specValuesInDocOrder]
      | other => simp [parseLoop, specValuesInDocOrder, ih path urls h2.2]

/-- C1: on a scanner error (untokenizable input, e.g. the unterminated tag
`<rss`), `parse_xml` does not return the `ParseError` as the `Err` of its
`Result`: line 115 `unwrap()`s the scanner result, so the call panics.  It
never returns a partial result silently (the values accumulated before the
error are discarded by the panic), but the outcome is a panic, not the
`fails` outcome of the `Result` error path. -/
theorem parse_xml_panics_on_scanner_error :
    parse_xml [Option.none] ⟨"rss,channel,item", "url"⟩ = PRes.panics ∧
    parse_xml [some (XEvent.empty (some "item") [some ⟨some "url", some "A"⟩]),
        Option.none] ⟨"item", "url"⟩ = PRes.panics ∧
    PRes.panics ≠ PRes.fails ∧ (∀ urls, PRes.panics ≠ PRes.ok urls) :=
  ⟨by decide, by decide, by decide, fun urls h => by cases h⟩

/-- C2: a self-closing element with name N at ancestor stack S matches the
target path P exactly when S with N appended equals P element for element;
in particular target `["a","b"]` does not match an element whose full chain
is `["a","b","c"]` or `["a"]` alone, there is no case folding (`"B"` does not
match `"b"`), and the corresponding `parse_xml` runs extract nothing in the
non-matching cases and extract the value in the exact-match case. -/
theorem check_match_exact_path_only :
    (∀ (S P : List String) (N : String),
        check_match S N P = true ↔ S ++ [N] = P) ∧
    check_match ["a", "b"] "c" ["a", "b"] = false ∧
    check_match [] "a" ["a", "b"] = false ∧
    parse_xml [some (XEvent.start (some "a") []),
        some (XEvent.start (some "b") []),
        some (XEvent.empty (some "c") [some ⟨some "url", some "X"⟩]),
        some (XEvent.endTag (some "b")), some (XEvent.endTag (some "a")),
        some XEvent.eof] ⟨"a,b", "url"⟩ = PRes.ok [] ∧
    parse_xml [some (XEvent.empty (some "a") [some ⟨some "url", some "X"⟩]),
        some XEvent.eof] ⟨"a,b", "url"⟩ = PRes.ok [] ∧
    parse_xml [some (XEvent.start (some "a") []),
        some (XEvent.empty (some "B") [some ⟨some "url", some "X"⟩]),
        some (XEvent.endTag (some "a")), some XEvent.eof] ⟨"a,b", "url"⟩
      = PRes.ok [] ∧
    parse_xml [some (XEvent.start (some "a") []),
        some (XEvent.empty (some "b") [some ⟨some "url", some "X"⟩]),
        some (XEvent.endTag (some "a")), some XEvent.eof] ⟨"a,b", "url"⟩
      = PRes.ok ["X"] := by
  refine ⟨fun S P N => ?_, by decide, by decide, by decide, by decide,
    by decide, by decide⟩
  simp [check_match]

/-- C3 counterexample: with path `item` and attribute `url`, the self-closing
form `<item url="X"/>` (an `Empty` event) yields `["X"]`, while the childless
open/close pair `<item url="X"></item>` (a `Start` event carrying the same
attributes followed by an `End` event) yields `[]` — the two forms are not
equivalent, refuting the claim that both yield `X`. -/
theorem open_close_pair_not_matched_cex :
    parse_xml [some (XEvent.empty (some "item") [some ⟨some "url", some "X"⟩]),
        some XEvent.eof] ⟨"item", "url"⟩ = PRes.ok ["X"] ∧
    parse_xml [some (XEvent.start (some "item") [some ⟨some "url", some "X"⟩]),
        some (XEvent.endTag (some "item")), some XEvent.eof] ⟨"item", "url"⟩
      = PRes.ok [] :=
  ⟨by decide, by decide⟩

/-- C3 amended: only the self-closing form is matched; a childless open/close
pair is a complete no-op for the extraction — its `Start` attributes are
ignored and the push is immediately undone by the pop, so the scan continues
in exactly the same state with nothing extracted. -/
theorem open_close_pair_is_noop (prop : String) (pp : List String)
    (n : String) (attrs : List (Option RawAttr)) (en : Option String)
    (rest : List (Option XEvent)) (path urls : List String) :
    parseLoop prop pp
        (some (XEvent.start (some n) attrs) :: some (XEvent.endTag en) :: rest)
        path urls
      = parseLoop prop pp rest path urls := by
  simp [parseLoop, dropLast_append_single]

/-- C4: the configured path string is split on `,` with no trimming:
`"rss, channel, item"` yields `["rss", " channel", " item"]` with the leading
spaces retained, so a document whose elements are literally named
`" channel"` and `" item"` matches and yields the value, while one named
`channel`/`item` does not match at all. -/
theorem split_no_trim :
    split_path "rss, channel, item" = ["rss", " channel", " item"] ∧
    parse_xml [some (XEvent.start (some "rss") []),
        some (XEvent.start (some " channel") []),
        some (XEvent.empty (some " item") [some ⟨some "url", some "X"⟩]),
        some (XEvent.endTag (some " channel")),
        some (XEvent.endTag (some "rss")),
        some XEvent.eof] ⟨"rss, channel, item", "url"⟩ = PRes.ok ["X"] ∧
    parse_xml [some (XEvent.start (some "rss") []),
        some (XEvent.start (some " channel") []),
        some (XEvent.empty (some "item") [some ⟨some "url", some "X"⟩]),
        some (XEvent.endTag (some " channel")),
        some (XEvent.endTag (some "rss")),
        some XEvent.eof] ⟨"rss, channel, item", "url"⟩ = PRes.ok [] :=
  ⟨by decide, by decide, by decide⟩

/-- C5: on every stream the scanner tokenizes without error, the extraction
result is exactly the spec-side document-order concatenation of the matching
elements' extracted attribute values — values are appended in scan order and
the result is never reordered, deduplicated, or sorted. -/
theorem result_is_document_order (evs : List (Option XEvent))
    (cfg : ParserConfig) (h : streamOk evs = true) :
    parse_xml evs cfg
      = PRes.ok
          (specValuesInDocOrder cfg.property (split_path cfg.path) evs []) :=
  parseLoop_refines cfg.property (split_path cfg.path) evs [] [] h

/-- C5 witness: the end-to-end example document
`<rss><channel><item url="http://a/1"/><item url="http://a/2"/></channel></rss>`
yields `["http://a/1", "http://a/2"]` in document order. -/
theorem result_is_document_order_witness :
    streamOk
        [some (XEvent.start (some "rss") []),
         some (XEvent.start (some "channel") []),
         some (XEvent.empty (some "item") [some ⟨some "url", some "http://a/1"⟩]),
         some (XEvent.empty (some "item") [some ⟨some "url", some "http://a/2"⟩]),
         some (XEvent.endTag (some "channel")),
         some (XEvent.endTag (some "rss")),
         some XEvent.eof] = true ∧
    parse_xml
        [some (XEvent.start (some "rss") []),
         some (XEvent.start (some "channel") []),
         some (XEvent.empty (some "item") [some ⟨some "url", some "http://a/1"⟩]),
         some (XEvent.empty (some "item") [some ⟨some "url", some "http://a/2"⟩]),
         some (XEvent.endTag (some "channel")),
         some (XEvent.endTag (some "rss")),
         some XEvent.eof] ⟨"rss,channel,item", "url"⟩
      = PRes.ok ["http://a/1", "http://a/2"] := by
  constructor
  · decide
  · rw [result_is_document_order _ _ (by decide)]
    decide

/-- C6: processing a self-closing element event leaves the ancestor stack
unchanged — the match check is made against the stack with the name appended
(a copy), and the scan of the remaining events continues with exactly the
stack from before the event; only the accumulated values may grow. -/
theorem empty_event_leaves_stack_unchanged (prop : String) (pp : List String)
    (n : String) (attrs : List (Option RawAttr)) (rest : List (Option XEvent))
    (path urls : List String) :
    parseLoop prop pp (some (XEvent.empty (some n) attrs) :: rest) path urls
      = parseLoop prop pp rest path
          (urls ++
            if check_match path n pp then extractAttrs attrs prop else []) := by
  cases h : check_match path n pp <;> simp [parseLoop, h]

/-- C7: an element-close event arriving on an empty ancestor stack is a
no-op: the stack stays empty, no error outcome is produced, and the scan
continues on the remaining events exactly as if the event were absent. -/
theorem unbalanced_close_is_noop (prop : String) (pp : List String)
    (en : Option String) (rest : List (Option XEvent)) (urls : List String) :
    parseLoop prop pp (some (XEvent.endTag en) :: rest) [] urls
      = parseLoop prop pp rest [] urls := by
  simp [parseLoop]

/-- C8: the attribute extractor equals the document-order filterMap keeping
the value of every well-formed attribute whose key exactly equals the wanted
name — it collects all duplicates rather than stopping at the first match, as
the concrete duplicate-key run shows. -/
theorem extract_collects_all_matches :
    (∀ (attrs : List (Option RawAttr)) (prop : String),
        extractAttrs attrs prop = specExtract attrs prop) ∧
    extractAttrs [some ⟨some "url", some "A"⟩, some ⟨some "url", some "B"⟩]
        "url"
      = ["A", "B"] :=
  ⟨extractAttrs_eq_specExtract, by decide⟩

/-- C9: a matched element none of whose attribute items carries the wanted
key contributes zero entries; an attribute whose value does not decode as
text is skipped while the remaining attributes are still scanned; and a
matched element with a wrong-keyed attribute, an undecodable-valued
attribute, and a malformed attribute item still lets the whole call return
`ok` with no entries — neither condition aborts the extraction. -/
theorem missing_attr_and_bad_value_skipped :
    (∀ (prop : String) (attrs : List (Option RawAttr)),
        (∀ a ∈ attrs, attrKeyIs a prop = false) →
        extractAttrs attrs prop = []) ∧
    (∀ (prop k : String) (rest : List (Option RawAttr)),
        extractAttrs (some ⟨some k, none⟩ :: rest) prop
          = extractAttrs rest prop) ∧
    parse_xml [some (XEvent.empty (some "item")
        [some ⟨some "other", some "v"⟩, some ⟨some "url", none⟩, Option.none]),
      some XEvent.eof] ⟨"item", "url"⟩ = PRes.ok [] := by
  refine ⟨?_, ?_, by decide⟩
  · intro prop attrs h
    induction attrs with
    | nil => rfl
    | cons a rest ih =>
      have ha := h a (List.mem_cons_self a rest)
      have hrest : ∀ x ∈ rest, attrKeyIs x prop = false :=
        fun x hx => h x (List.mem_cons_of_mem _ hx)
      cases a with
      | none => simpa [extractAttrs] using ih hrest
      | some r =>
        obtain ⟨k, v⟩ := r
        cases k with
        | none => simpa [extractAttrs] using ih hrest
        | some k =>
          have hk : k ≠ prop := by
            intro hkp
            subst hkp
            simp [attrKeyIs] at ha
          simpa [extractAttrs, hk] using ih hrest
  · intro prop k rest
    by_cases hk : k = prop <;> simp [extractAttrs, hk]

/-- C9 witness: a single attribute with key `other` never equals the wanted
key `url`, and the extractor returns no entries on it. -/
theorem missing_attr_and_bad_value_skipped_witness :
    (∀ a ∈ ([some ⟨some "other", some "v"⟩, Option.none] :
        List (Option RawAttr)), attrKeyIs a "url" = false) ∧
    extractAttrs [some ⟨some "other", some "v"⟩, Option.none] "url" = [] :=
  ⟨by decide, missing_attr_and_bad_value_skipped.1 "url" _ (by decide)⟩

/-- C10: on every stream the scanner tokenizes without error and whose
element names all decode as UTF-8 (which the scanner guarantees for a valid
UTF-8 `&str` input, since tag names are sliced at ASCII delimiters), the
`?`-propagated decode errors are unreachable and `parse_xml` returns `ok`
with the accumulated list. -/
theorem parse_xml_ok_on_good_stream (evs : List (Option XEvent))
    (cfg : ParserConfig) (h : streamOk evs = true) :
    ∃ urls, parse_xml evs cfg = PRes.ok urls :=
  ⟨_, parseLoop_refines cfg.property (split_path cfg.path) evs [] [] h⟩

/-- C10 witness: a concrete error-free stream on which `parse_xml` returns
`ok`. -/
theorem parse_xml_ok_on_good_stream_witness :
    streamOk [some (XEvent.start (some "rss") []),
        some (XEvent.endTag (some "rss")), some XEvent.eof] = true ∧
    ∃ urls,
      parse_xml [some (XEvent.start (some "rss") []),
          some (XEvent.endTag (some "rss")), some XEvent.eof]
          ⟨"rss,channel,item", "url"⟩
        = PRes.ok urls :=
  ⟨by decide,
    parse_xml_ok_on_good_stream _ ⟨"rss,channel,item", "url"⟩ (by decide)⟩

end TransmissionRss
